import Mathlib

/-!
# Verification of the fheroes2 LAN lobby core (`src/engine/network/lan_lobby.cpp`)

Shallow embedding of the LAN lobby protocol implementation:
the packet codec, the host state machine (`Network::LanLobbyHost`) and the
client state machine (`Network::LanLobbyClient`).  Byte strings are
`List Nat` (each element one octet); machine integers are `Nat` with
explicit `% 2^w` where the code truncates.  Socket I/O outcomes (bytes
received, socket-setup success) are passed in explicitly, so every
definition is a pure function of the observable state.

The serialization primitives (`RWStreamBuf` / `ROStreamBuf` from
`serialize.h`, which is not part of the sources under verification) are
modelled from the spec: little-endian fixed-width integers and strings
written as a uint32 length prefix followed by the raw bytes.
-/

namespace LanLobby

/-! ## Byte-level codec

Modelled from the spec: `serialize.h`'s `RWStreamBuf` writers emit
little-endian fixed-width integers and length-prefixed strings; the
`ROStreamBuf` readers mirror them and fail (C++ `fail()` bit) on a short
read.  A "byte string" is a `List Nat`. -/

/-- ASCII/UTF-8 bytes of a Lean string literal (C++ `std::string` contents). -/
def strBytes (s : String) : List Nat :=
  s.data.map Char.toNat

/-- Little-endian uint8 writer. -/
def putU8 (v : Nat) : List Nat := [v % 256]

/-- Little-endian uint16 writer. -/
def putU16 (v : Nat) : List Nat := [v % 256, v / 256 % 256]

/-- Little-endian uint32 writer. -/
def putU32 (v : Nat) : List Nat :=
  [v % 256, v / 256 % 256, v / 65536 % 256, v / 16777216 % 256]

/-- Little-endian uint64 writer (low 32 bits first). -/
def putU64 (v : Nat) : List Nat :=
  putU32 (v % 4294967296) ++ putU32 (v / 4294967296)

/-- String writer: uint32 length prefix followed by the raw bytes. -/
def putString (s : List Nat) : List Nat := putU32 s.length ++ s

/-- uint8 reader. -/
def readU8 : List Nat → Option (Nat × List Nat)
  | b :: r => some (b, r)
  | [] => none

/-- uint16 reader. -/
def readU16 : List Nat → Option (Nat × List Nat)
  | b0 :: b1 :: r => some (b0 + 256 * b1, r)
  | _ => none

/-- uint32 reader. -/
def readU32 : List Nat → Option (Nat × List Nat)
  | b0 :: b1 :: b2 :: b3 :: r =>
    some (b0 + 256 * b1 + 65536 * b2 + 16777216 * b3, r)
  | _ => none

/-- uint64 reader (low 32 bits first). -/
def readU64 (l : List Nat) : Option (Nat × List Nat) :=
  match readU32 l with
  | none => none
  | some (lo, r) =>
    match readU32 r with
    | none => none
    | some (hi, r') => some (lo + 4294967296 * hi, r')

/-- Raw-byte reader: `n` bytes, failing on a short buffer. -/
def readBytes (n : Nat) (l : List Nat) : Option (List Nat × List Nat) :=
  if n ≤ l.length then some (l.take n, l.drop n) else none

/-- String reader: uint32 length prefix followed by that many raw bytes. -/
def readString (l : List Nat) : Option (List Nat × List Nat) :=
  match readU32 l with
  | none => none
  | some (n, r) => readBytes n r

theorem readU32_putU32 (v : Nat) (r : List Nat) :
    readU32 (putU32 v ++ r) = some (v % 4294967296, r) := by
  simp only [putU32, List.cons_append, List.nil_append, readU32, Option.some.injEq,
    Prod.mk.injEq, and_true]
  omega

theorem readU64_putU64 (v : Nat) (r : List Nat) :
    readU64 (putU64 v ++ r) = some (v % 18446744073709551616, r) := by
  simp only [putU64, List.append_assoc, readU64, readU32_putU32, Option.some.injEq,
    Prod.mk.injEq, and_true]
  omega

theorem readU16_putU16 (v : Nat) (r : List Nat) :
    readU16 (putU16 v ++ r) = some (v % 65536, r) := by
  simp only [putU16, List.cons_append, List.nil_append, readU16, Option.some.injEq,
    Prod.mk.injEq, and_true]
  omega

theorem readU8_putU8 (v : Nat) (r : List Nat) :
    readU8 (putU8 v ++ r) = some (v % 256, r) := by
  simp [putU8, readU8]

theorem readString_putString (s : List Nat) (r : List Nat) (h : s.length < 4294967296) :
    readString (putString s ++ r) = some (s, r) := by
  simp only [putString, List.append_assoc, readString, readU32_putU32,
    Nat.mod_eq_of_lt h, readBytes]
  rw [if_pos (by simp)]
  simp [List.take_left, List.drop_left]

/-! ## Packet layer (`makePacket`, `parseHeader`, TCP framing) -/

/-- `makePacket` (anonymous namespace of `lan_lobby.cpp`): magic `0x4C4F4242`,
protocol version 1, one type byte, then the body. -/
def makePacket (ty : Nat) (body : List Nat) : List Nat :=
  putU32 0x4C4F4242 ++ putU32 1 ++ putU8 ty ++ body

/-- `parseHeader`: read magic, version, type; fail on short read, on a magic
mismatch, or on a version mismatch.  Returns the type byte and the body. -/
def parseHeader (l : List Nat) : Option (Nat × List Nat) :=
  match readU32 l with
  | none => none
  | some (magic, r1) =>
    match readU32 r1 with
    | none => none
    | some (version, r2) =>
      match readU8 r2 with
      | none => none
      | some (ty, r3) =>
        if magic = 0x4C4F4242 ∧ version = 1 then some (ty, r3) else none

/-- `_sendPacket` framing: a uint32 little-endian length prefix covering
header+body. -/
def frame (packet : List Nat) : List Nat :=
  putU32 packet.length ++ packet

/-- The length prefix a TCP pump reads from the first four buffered bytes
(`memcpy` + `le32toh` in `_pumpClient` / `_pumpTcp`). -/
def readLenLE (l : List Nat) : Nat :=
  l.getD 0 0 + 256 * l.getD 1 0 + 65536 * l.getD 2 0 + 16777216 * l.getD 3 0

theorem parseHeader_makePacket (ty : Nat) (body : List Nat) (h : ty < 256) :
    parseHeader (makePacket ty body) = some (ty, body) := by
  simp [makePacket, parseHeader, readU32_putU32, readU8_putU8, Nat.mod_eq_of_lt h]

theorem readLenLE_frame (packet : List Nat) :
    readLenLE (frame packet) = packet.length % 4294967296 := by
  simp only [frame, putU32, List.cons_append, List.nil_append, readLenLE,
    List.getD_cons_zero, List.getD_cons_succ]
  omega

theorem frame_length (packet : List Nat) :
    (frame packet).length = 4 + packet.length := by
  simp [frame, putU32]
  omega

theorem frame_drop4 (packet : List Nat) :
    (frame packet).drop 4 = packet := by
  simp [frame, putU32]

/-! ## Message bodies -/

/-- Hello body (client → host): lobbyId, playerName, inviteCode. -/
def encodeHelloBody (lobbyId : Nat) (playerName inviteCode : List Nat) : List Nat :=
  putU64 lobbyId ++ putString playerName ++ putString inviteCode

/-- Host-side Hello body read (`s >> lobbyId >> playerName >> invite`). -/
def decodeHelloBody (l : List Nat) : Option (Nat × List Nat × List Nat) :=
  match readU64 l with
  | none => none
  | some (lobbyId, r1) =>
    match readString r1 with
    | none => none
    | some (playerName, r2) =>
      match readString r2 with
      | none => none
      | some (invite, _) => some (lobbyId, playerName, invite)

/-- Chat body (either direction): timestampMs, from, text. -/
def encodeChatBody (timestampMs : Nat) (fromName text : List Nat) : List Nat :=
  putU64 timestampMs ++ putString fromName ++ putString text

/-- Chat body read (`s >> ts >> from >> text`). -/
def decodeChatBody (l : List Nat) : Option (Nat × List Nat × List Nat) :=
  match readU64 l with
  | none => none
  | some (ts, r1) =>
    match readString r1 with
    | none => none
    | some (fromName, r2) =>
      match readString r2 with
      | none => none
      | some (text, _) => some (ts, fromName, text)

/-- Advertise body (UDP): lobbyId, tcpPort, privacy byte, lobbyName,
hostPlayerName. -/
def encodeAdvertiseBody (lobbyId tcpPort privacy : Nat) (lobbyName hostPlayerName : List Nat) :
    List Nat :=
  putU64 lobbyId ++ putU16 tcpPort ++ putU8 privacy ++ putString lobbyName ++
    putString hostPlayerName

/-- Advertise body read (`s >> lobbyId >> port >> privacy >> lobbyName >> hostPlayerName`). -/
def decodeAdvertiseBody (l : List Nat) : Option (Nat × Nat × Nat × List Nat × List Nat) :=
  match readU64 l with
  | none => none
  | some (lobbyId, r1) =>
    match readU16 r1 with
    | none => none
    | some (port, r2) =>
      match readU8 r2 with
      | none => none
      | some (privacy, r3) =>
        match readString r3 with
        | none => none
        | some (lobbyName, r4) =>
          match readString r4 with
          | none => none
          | some (hostPlayerName, _) => some (lobbyId, port, privacy, lobbyName, hostPlayerName)

/-- HelloAck body (host → client): lobbyId, lobbyName, hostPlayerName, privacy. -/
def encodeHelloAckBody (lobbyId : Nat) (lobbyName hostPlayerName : List Nat) (privacy : Nat) :
    List Nat :=
  putU64 lobbyId ++ putString lobbyName ++ putString hostPlayerName ++ putU8 privacy

theorem readString_putString_nil (s : List Nat) (h : s.length < 4294967296) :
    readString (putString s) = some (s, []) := by
  have := readString_putString s [] h
  simpa using this

theorem decodeHelloBody_encode (lobbyId : Nat) (playerName inviteCode : List Nat)
    (hid : lobbyId < 18446744073709551616)
    (hn : playerName.length < 4294967296) (hc : inviteCode.length < 4294967296) :
    decodeHelloBody (encodeHelloBody lobbyId playerName inviteCode) =
      some (lobbyId, playerName, inviteCode) := by
  simp [encodeHelloBody, decodeHelloBody, readU64_putU64, Nat.mod_eq_of_lt hid,
    readString_putString _ _ hn, readString_putString_nil _ hc]

theorem decodeChatBody_encode (ts : Nat) (fromName text : List Nat)
    (hts : ts < 18446744073709551616)
    (hf : fromName.length < 4294967296) (ht : text.length < 4294967296) :
    decodeChatBody (encodeChatBody ts fromName text) = some (ts, fromName, text) := by
  simp [encodeChatBody, decodeChatBody, readU64_putU64, Nat.mod_eq_of_lt hts,
    readString_putString _ _ hf, readString_putString_nil _ ht]

theorem decodeAdvertiseBody_encode (lobbyId tcpPort privacy : Nat)
    (lobbyName hostPlayerName : List Nat)
    (hid : lobbyId < 18446744073709551616) (hp : tcpPort < 65536)
    (hl : lobbyName.length < 4294967296) (hh : hostPlayerName.length < 4294967296) :
    decodeAdvertiseBody (encodeAdvertiseBody lobbyId tcpPort privacy lobbyName hostPlayerName) =
      some (lobbyId, tcpPort, privacy % 256, lobbyName, hostPlayerName) := by
  simp [encodeAdvertiseBody, decodeAdvertiseBody, readU64_putU64, Nat.mod_eq_of_lt hid,
    readU16_putU16, Nat.mod_eq_of_lt hp, readU8_putU8,
    readString_putString _ _ hl, readString_putString_nil _ hh]

/-! ## Data model (`lan_lobby.h`)

`LobbyPrivacy` is kept as its byte value (`Open = 0`, `InviteOnly = 1`),
matching the `uint8_t` casts on the wire.  The C++ field `from` is a Lean
keyword and is embedded as `fromName`. -/

/-- `IpEndpoint` (address text, port). -/
structure IpEndpoint where
  address : List Nat
  port : Nat
  deriving DecidableEq, Repr, Inhabited

/-- `LobbyChatMessage`. -/
structure LobbyChatMessage where
  timestampMs : Nat
  fromName : List Nat
  text : List Nat
  deriving DecidableEq, Repr, Inhabited

/-- `LobbyHostInfo` (discovery record). -/
structure LobbyHostInfo where
  lobbyName : List Nat
  hostPlayerName : List Nat
  privacy : Nat
  tcpPort : Nat
  endpoint : IpEndpoint
  lobbyId : Nat
  protocolVersion : Nat
  deriving DecidableEq, Repr, Inhabited

/-- `LanLobbyHost::Client` session.  `socketValid` models
`socket.isValid()`; `sent` records the byte strings written to the session's
socket, in order. -/
structure HostClient where
  socketValid : Bool := true
  endpoint : IpEndpoint := default
  name : List Nat := []
  joined : Bool := false
  rx : List Nat := []
  sent : List (List Nat) := []
  deriving DecidableEq, Repr, Inhabited

/-- `LanLobbyHost` observable state.  `udpOpen` / `tcpListenOpen` model the
two sockets being open. -/
structure HostState where
  running : Bool := false
  udpOpen : Bool := false
  tcpListenOpen : Bool := false
  tcpPort : Nat := 0
  lobbyId : Nat := 0
  privacy : Nat := 0
  inviteCode : List Nat := []
  lobbyName : List Nat := []
  hostPlayerName : List Nat := []
  lastAdvertiseMs : Nat := 0
  chat : List LobbyChatMessage := []
  clients : List HostClient := []
  deriving DecidableEq, Repr, Inhabited

/-- Outcomes of the socket-setup calls made by `LanLobbyHost::start`,
passed in explicitly (the environment decides them at run time). -/
structure StartEnv where
  subsystemReady : Bool := true
  udpValid : Bool := true
  tcpValid : Bool := true
  bindDefaultOk : Bool := true
  bindZeroOk : Bool := true
  listenOk : Bool := true
  osPort : Nat := 0
  randomId : Nat := 0
  now : Nat := 0
  deriving DecidableEq, Repr, Inhabited

/-- `lobbyDefaultTcpPort`. -/
def lobbyDefaultTcpPort : Nat := 26368

/-- `lobbyDiscoveryPort`. -/
def lobbyDiscoveryPort : Nat := 26367

/-! ## Host operations -/

/-- `LanLobbyHost::stop`. -/
def hostStop (s : HostState) : HostState :=
  { s with running := false, clients := [], chat := [], udpOpen := false,
           tcpListenOpen := false, tcpPort := 0, lobbyId := 0, lastAdvertiseMs := 0 }

/-- `LanLobbyHost::start`: stop, then set up state and sockets in source
order, returning `false` and the partially mutated state on any setup
failure. -/
def hostStart (env : StartEnv) (lobbyName hostPlayerName : List Nat) (privacy : Nat)
    (inviteCode : List Nat) (s : HostState) : Bool × HostState :=
  let s0 := hostStop s
  if ¬env.subsystemReady then (false, s0)
  else
    let s1 := { s0 with privacy := privacy, inviteCode := inviteCode,
                        lobbyName := lobbyName, hostPlayerName := hostPlayerName,
                        lobbyId := env.randomId }
    if ¬env.udpValid then (false, s1)
    else
      let s2 := { s1 with udpOpen := true }
      if ¬env.tcpValid then (false, s2)
      else
        let s3 := { s2 with tcpListenOpen := true }
        match (if env.bindDefaultOk then some lobbyDefaultTcpPort
               else if env.bindZeroOk then some env.osPort else none) with
        | none => (false, s3)
        | some p =>
          let s4 := { s3 with tcpPort := p }
          if ¬env.listenOk then (false, s4)
          else (true, { s4 with lastAdvertiseMs := 0, running := true,
                                chat := [⟨env.now, strBytes "system", strBytes "Lobby started"⟩] })

/-- Replace the client at index `i` (out-of-range indices leave the list
unchanged, like indexing a `std::vector` that is never accessed there). -/
def updateClient : List HostClient → Nat → (HostClient → HostClient) → List HostClient
  | [], _, _ => []
  | c :: cs, 0, f => f c :: cs
  | c :: cs, n + 1, f => c :: updateClient cs n f

/-- The session at index `i`. -/
def clientAt (s : HostState) (i : Nat) : HostClient :=
  s.clients.getD i default

/-- Apply `f` to the session at index `i`. -/
def modifyClient (s : HostState) (i : Nat) (f : HostClient → HostClient) : HostState :=
  { s with clients := updateClient s.clients i f }

/-- `client.socket.close()`. -/
def closeAt (s : HostState) (i : Nat) : HostState :=
  modifyClient s i fun c => { c with socketValid := false }

/-- `_sendPacket(client.socket, packet)`: the framed bytes land in the
session's `sent` log. -/
def sendToClient (s : HostState) (i : Nat) (packet : List Nat) : HostState :=
  modifyClient s i fun c => { c with sent := c.sent ++ [frame packet] }

/-- `client.joined = true; client.name = playerName`. -/
def joinClient (s : HostState) (i : Nat) (playerName : List Nat) : HostState :=
  modifyClient s i fun c => { c with joined := true, name := playerName }

/-- `_broadcastPacket`: send the framed packet to every session whose socket
is valid and which is joined — the source excludes nobody else. -/
def broadcastTo (clients : List HostClient) (packet : List Nat) : List HostClient :=
  clients.map fun c =>
    if c.socketValid ∧ c.joined then { c with sent := c.sent ++ [frame packet] } else c

/-- The Kick packet the host builds on an invite-code mismatch. -/
def kickPacket : List Nat :=
  makePacket 30 (putString (strBytes "Invalid invite code"))

/-- The HelloAck packet built from the host's state. -/
def helloAckPacket (s : HostState) : List Nat :=
  makePacket 11 (encodeHelloAckBody s.lobbyId s.lobbyName s.hostPlayerName s.privacy)

/-- `LanLobbyHost::sendChatFromHost`: no-op unless running; otherwise append
the attributed message locally and broadcast the Chat packet to every joined
session. -/
def sendChatFromHost (now : Nat) (text : List Nat) (s : HostState) : HostState :=
  if ¬s.running then s
  else
    let msg : LobbyChatMessage :=
      ⟨now, if s.hostPlayerName = [] then strBytes "host" else s.hostPlayerName, text⟩
    let packet := makePacket 20 (encodeChatBody msg.timestampMs msg.fromName msg.text)
    { s with chat := s.chat ++ [msg], clients := broadcastTo s.clients packet }

/-- Dispatch of one extracted packet in `LanLobbyHost::_pumpClient`.
The `Bool` is `true` when the extraction loop continues (`continue` /
fall-through) and `false` when the handler returns from the pump. -/
def hostHandlePacket (now : Nat) (packet : List Nat) (s : HostState) (i : Nat) :
    HostState × Bool :=
  match parseHeader packet with
  | none => (s, true)
  | some (ty, body) =>
    if ty = 10 then
      match decodeHelloBody body with
      | none => (closeAt s i, false)
      | some (lobbyId, playerName, invite) =>
        if lobbyId ≠ s.lobbyId then (closeAt s i, false)
        else if s.privacy = 1 ∧ invite ≠ s.inviteCode then
          (closeAt (sendToClient s i kickPacket) i, false)
        else
          let s1 := sendToClient (joinClient s i playerName) i (helloAckPacket s)
          ({ s1 with chat := s1.chat ++
              [⟨now, strBytes "system", playerName ++ strBytes " joined"⟩] }, true)
    else if ty = 20 then
      match decodeChatBody body with
      | none => (s, true)
      | some (ts, fromName, text) =>
        if ¬(clientAt s i).joined then (s, true)
        else
          let relay := makePacket 20 (encodeChatBody ts fromName text)
          ({ s with chat := s.chat ++ [⟨ts, fromName, text⟩],
                    clients := broadcastTo s.clients relay }, true)
    else (s, true)

theorem updateClient_length (l : List HostClient) (i : Nat) (f : HostClient → HostClient) :
    (updateClient l i f).length = l.length := by
  induction l generalizing i with
  | nil => rfl
  | cons c cs ih =>
    cases i with
    | zero => rfl
    | succ n => simp [updateClient, ih]

theorem updateClient_getD_self (l : List HostClient) (i : Nat) (f : HostClient → HostClient)
    (h : i < l.length) :
    (updateClient l i f).getD i default = f (l.getD i default) := by
  induction l generalizing i with
  | nil => simp at h
  | cons c cs ih =>
    cases i with
    | zero => rfl
    | succ n =>
      show (updateClient cs n f).getD n default = f (cs.getD n default)
      exact ih n (by simp at h; omega)

theorem clientAt_modifyClient_self (s : HostState) (i : Nat) (f : HostClient → HostClient)
    (h : i < s.clients.length) :
    clientAt (modifyClient s i f) i = f (clientAt s i) :=
  updateClient_getD_self s.clients i f h

theorem modifyClient_clients_length (s : HostState) (i : Nat) (f : HostClient → HostClient) :
    (modifyClient s i f).clients.length = s.clients.length := by
  simp [modifyClient, updateClient_length]

theorem broadcastTo_rx (clients : List HostClient) (packet : List Nat) (i : Nat) :
    ((broadcastTo clients packet).getD i default).rx = (clients.getD i default).rx := by
  induction clients generalizing i with
  | nil => rfl
  | cons c cs ih =>
    cases i with
    | zero =>
      simp only [broadcastTo, List.map_cons, List.getD_cons_zero]
      split <;> rfl
    | succ n =>
      simp only [broadcastTo, List.map_cons, List.getD_cons_succ]
      exact ih n

theorem updateClient_getD_rx (l : List HostClient) (i : Nat) (f : HostClient → HostClient)
    (hf : ∀ c, (f c).rx = c.rx) (j : Nat) :
    ((updateClient l i f).getD j default).rx = (l.getD j default).rx := by
  induction l generalizing i j with
  | nil => rfl
  | cons c cs ih =>
    cases i with
    | zero =>
      cases j with
      | zero => show (f c).rx = c.rx; exact hf c
      | succ m => rfl
    | succ n =>
      cases j with
      | zero => rfl
      | succ m =>
        show ((updateClient cs n f).getD m default).rx = (cs.getD m default).rx
        exact ih n m

theorem clientAt_modifyClient_rx (s : HostState) (i : Nat) (f : HostClient → HostClient)
    (hf : ∀ c, (f c).rx = c.rx) (j : Nat) :
    (clientAt (modifyClient s i f) j).rx = (clientAt s j).rx :=
  updateClient_getD_rx s.clients i f hf j

theorem clientAt_closeAt_rx (s : HostState) (i j : Nat) :
    (clientAt (closeAt s i) j).rx = (clientAt s j).rx :=
  clientAt_modifyClient_rx s i (fun c => { c with socketValid := false }) (fun _ => rfl) j

theorem clientAt_sendToClient_rx (s : HostState) (i : Nat) (packet : List Nat) (j : Nat) :
    (clientAt (sendToClient s i packet) j).rx = (clientAt s j).rx :=
  clientAt_modifyClient_rx s i (fun c => { c with sent := c.sent ++ [frame packet] })
    (fun _ => rfl) j

theorem clientAt_joinClient_rx (s : HostState) (i : Nat) (n : List Nat) (j : Nat) :
    (clientAt (joinClient s i n) j).rx = (clientAt s j).rx :=
  clientAt_modifyClient_rx s i (fun c => { c with joined := true, name := n })
    (fun _ => rfl) j

/-- No branch of the packet handler touches the receive buffer of session
`i` (close, join, send and broadcast all leave `rx` alone). -/
theorem hostHandlePacket_rx (now : Nat) (packet : List Nat) (s : HostState) (i j : Nat) :
    (clientAt (hostHandlePacket now packet s i).1 j).rx = (clientAt s j).rx := by
  unfold hostHandlePacket
  split
  · rfl
  · split
    · split
      · exact clientAt_closeAt_rx s i j
      · split
        · exact clientAt_closeAt_rx s i j
        · split
          · rw [clientAt_closeAt_rx, clientAt_sendToClient_rx]
          · show (clientAt { sendToClient (joinClient s i _) i _ with
                chat := _ } j).rx = (clientAt s j).rx
            rw [show ∀ (t : HostState) ch, (clientAt { t with chat := ch } j).rx =
                  (clientAt t j).rx from fun _ _ => rfl]
            rw [clientAt_sendToClient_rx, clientAt_joinClient_rx]
    · split
      · split
        · rfl
        · split
          · rfl
          · exact broadcastTo_rx _ _ _
      · rfl

/-- The length-prefixed frame-extraction loop of `LanLobbyHost::_pumpClient`:
while at least the 4-byte prefix is buffered, check the declared length
(0 or > 65536 closes the session and stops), wait for the full frame,
otherwise cut it out of the buffer and dispatch it. -/
def hostProcessFrames (now : Nat) (s : HostState) (i : Nat) : HostState :=
  if h4 : (clientAt s i).rx.length < 4 then s
  else if hv : readLenLE (clientAt s i).rx = 0 ∨ 65536 < readLenLE (clientAt s i).rx then
    closeAt s i
  else if hw : (clientAt s i).rx.length < 4 + readLenLE (clientAt s i).rx then s
  else
    match hm : hostHandlePacket now
        (((clientAt s i).rx.drop 4).take (readLenLE (clientAt s i).rx))
        (modifyClient s i fun c => { c with rx := c.rx.drop (4 + readLenLE (clientAt s i).rx) })
        i with
    | (s2, false) => s2
    | (s2, true) => hostProcessFrames now s2 i
  termination_by (clientAt s i).rx.length
  decreasing_by
    have hi : i < s.clients.length := by
      by_contra hge
      have hd : clientAt s i = default :=
        List.getD_eq_default _ _ (by omega)
      rw [hd] at h4
      exact h4 (by decide)
    have h2 : (clientAt s2 i).rx =
        (clientAt s i).rx.drop (4 + readLenLE (clientAt s i).rx) := by
      have := hostHandlePacket_rx now
        (((clientAt s i).rx.drop 4).take (readLenLE (clientAt s i).rx))
        (modifyClient s i fun c =>
          { c with rx := c.rx.drop (4 + readLenLE (clientAt s i).rx) }) i i
      rw [hm] at this
      simp only at this
      rw [this, clientAt_modifyClient_self _ _ _ hi]
    rw [h2]
    simp only [List.length_drop]
    omega

/-- `LanLobbyHost::_pumpClient` for the session at index `i`.  `recv` is
the outcome of the non-blocking `recv` call: `none` for an error (close),
an empty list for would-block (return), otherwise the received bytes, which
are appended to the session's buffer before the extraction loop. -/
def hostPumpClient (now : Nat) (recv : Option (List Nat)) (s : HostState) (i : Nat) :
    HostState :=
  match recv with
  | none => closeAt s i
  | some bs =>
    if bs.isEmpty then s
    else hostProcessFrames now (modifyClient s i fun c => { c with rx := c.rx ++ bs }) i

/-! ## Client state machine (`LanLobbyClient`) -/

/-- `LanLobbyClient` observable state.  `tcpValid` models `_tcp.isValid()`;
`sent` records the byte strings written to the TCP socket. -/
structure ClientState where
  discovering : Bool := false
  udpOpen : Bool := false
  discovered : List LobbyHostInfo := []
  connected : Bool := false
  tcpValid : Bool := false
  rx : List Nat := []
  chat : List LobbyChatMessage := []
  playerName : List Nat := []
  inviteCode : List Nat := []
  sent : List (List Nat) := []
  deriving DecidableEq, Repr, Inhabited

/-- `LanLobbyClient::disconnect`. -/
def clientDisconnect (c : ClientState) : ClientState :=
  { c with connected := false, tcpValid := false, rx := [], chat := [] }

/-- `LanLobbyClient::isConnected`. -/
def isConnected (c : ClientState) : Bool :=
  c.connected && c.tcpValid

/-- Dispatch of one extracted packet in `LanLobbyClient::_pumpTcp`.  The
`Bool` is `true` when the extraction loop continues.  The Kick branch reads
the reason without a `fail()` check; a failed extraction leaves the
default-constructed empty string (modelled from the spec for the missing
`serialize.h` reader). -/
def handleClientPacket (now : Nat) (packet : List Nat) (c : ClientState) :
    ClientState × Bool :=
  match parseHeader packet with
  | none => (c, true)
  | some (ty, body) =>
    if ty = 20 then
      match decodeChatBody body with
      | none => (c, true)
      | some (ts, fromName, text) => ({ c with chat := c.chat ++ [⟨ts, fromName, text⟩] }, true)
    else if ty = 30 then
      let reason := ((readString body).map Prod.fst).getD []
      (clientDisconnect
        { c with chat := c.chat ++ [⟨now, strBytes "system", strBytes "Kicked: " ++ reason⟩] },
       false)
    else (c, true)

theorem handleClientPacket_rx_le (now : Nat) (packet : List Nat) (c : ClientState) :
    (handleClientPacket now packet c).1.rx.length ≤ c.rx.length := by
  unfold handleClientPacket
  split
  · exact Nat.le_refl _
  · split
    · split
      · exact Nat.le_refl _
      · exact Nat.le_refl _
    · split
      · simp [clientDisconnect]
      · exact Nat.le_refl _

/-- The frame-extraction loop of `LanLobbyClient::_pumpTcp` (same shape as
the host's; the 0/64KiB violation forces `disconnect()`). -/
def clientProcessFrames (now : Nat) (c : ClientState) : ClientState :=
  if h4 : c.rx.length < 4 then c
  else if hv : readLenLE c.rx = 0 ∨ 65536 < readLenLE c.rx then clientDisconnect c
  else if hw : c.rx.length < 4 + readLenLE c.rx then c
  else
    match hm : handleClientPacket now ((c.rx.drop 4).take (readLenLE c.rx))
        { c with rx := c.rx.drop (4 + readLenLE c.rx) } with
    | (c2, false) => c2
    | (c2, true) => clientProcessFrames now c2
  termination_by c.rx.length
  decreasing_by
    have h2 : c2.rx.length ≤ c.rx.length - (4 + readLenLE c.rx) := by
      have := handleClientPacket_rx_le now ((c.rx.drop 4).take (readLenLE c.rx))
        { c with rx := c.rx.drop (4 + readLenLE c.rx) }
      rw [hm] at this
      simpa using this
    omega

/-- `LanLobbyClient::_pumpTcp` (recv outcome conventions as for the host). -/
def clientPumpTcp (now : Nat) (recv : Option (List Nat)) (c : ClientState) : ClientState :=
  match recv with
  | none => clientDisconnect c
  | some bs =>
    if bs.isEmpty then c
    else clientProcessFrames now { c with rx := c.rx ++ bs }

/-- `LanLobbyClient::pumpConnection`. -/
def pumpConnection (now : Nat) (recv : Option (List Nat)) (c : ClientState) : ClientState :=
  if isConnected c then clientPumpTcp now recv c else c

/-- `LanLobbyClient::popChat`. -/
def popChat (c : ClientState) : Option LobbyChatMessage × ClientState :=
  match c.chat with
  | [] => (none, c)
  | m :: rest => (some m, { c with chat := rest })

/-! ## Discovery (UDP) -/

/-- One iteration of `LanLobbyClient::_pumpUdp` on a received datagram
(payload bytes and sender endpoint): keep only well-formed Advertise
messages and append the resulting `LobbyHostInfo`, with the sender address
as endpoint address and the advertised TCP port as endpoint port. -/
def handleDatagram (c : ClientState) (bytes : List Nat) (peer : IpEndpoint) : ClientState :=
  match parseHeader bytes with
  | none => c
  | some (ty, body) =>
    if ty ≠ 1 then c
    else
      match decodeAdvertiseBody body with
      | none => c
      | some (lobbyId, port, privacy, lobbyName, hostPlayerName) =>
        { c with discovered := c.discovered ++
            [{ lobbyName := lobbyName, hostPlayerName := hostPlayerName, privacy := privacy,
               tcpPort := port, endpoint := { address := peer.address, port := port },
               lobbyId := lobbyId, protocolVersion := 1 }] }

/-- `LanLobbyClient::_pumpUdp`: drain all pending datagrams in order. -/
def pumpUdp (c : ClientState) : List (List Nat × IpEndpoint) → ClientState
  | [] => c
  | d :: ds => pumpUdp (handleDatagram c d.1 d.2) ds

/-- `LanLobbyClient::pumpDiscovery`. -/
def pumpDiscovery (c : ClientState) (ds : List (List Nat × IpEndpoint)) : ClientState :=
  if ¬c.discovering then c else pumpUdp c ds

/-- `LanLobbyClient::drainDiscovered`: atomically empty and return the
discovered-hosts queue. -/
def drainDiscovered (c : ClientState) : List LobbyHostInfo × ClientState :=
  (c.discovered, { c with discovered := [] })

/-! ## Collaborator-side deduplication (`game_lan_lobby.cpp`) -/

/-- `hostInfoEquals`: two discovery records match when their
(lobbyId, endpoint address, endpoint port) keys coincide. -/
def hostInfoEquals (a b : LobbyHostInfo) : Bool :=
  a.lobbyId == b.lobbyId && a.endpoint.address == b.endpoint.address &&
    a.endpoint.port == b.endpoint.port

/-- `mergeDiscovered`: append each incoming record whose key is not already
present (the presentation layer's deduplication of drained results). -/
def mergeDiscovered (dst incoming : List LobbyHostInfo) : List LobbyHostInfo :=
  incoming.foldl
    (fun d item => if d.any fun existing => hostInfoEquals existing item then d else d ++ [item])
    dst

/-! ## Single-frame pump lemmas -/

theorem frame_isEmpty (packet : List Nat) : (frame packet).isEmpty = false := by
  simp [frame, putU32]

theorem frame_drop_all (packet : List Nat) :
    (frame packet).drop (4 + packet.length) = [] := by
  apply List.drop_eq_nil_of_le
  rw [frame_length]

theorem updateClient_comp (l : List HostClient) (i : Nat) (f g : HostClient → HostClient) :
    updateClient (updateClient l i f) i g = updateClient l i fun c => g (f c) := by
  induction l generalizing i with
  | nil => rfl
  | cons c cs ih =>
    cases i with
    | zero => rfl
    | succ n => simp [updateClient, ih]

theorem updateClient_eq_self (l : List HostClient) (i : Nat) (f : HostClient → HostClient)
    (h : f (l.getD i default) = l.getD i default) : updateClient l i f = l := by
  induction l generalizing i with
  | nil => rfl
  | cons c cs ih =>
    cases i with
    | zero => simpa [updateClient] using h
    | succ n => simp [updateClient, ih n (by simpa using h)]

theorem updateClient_congr (l : List HostClient) (i : Nat) (f g : HostClient → HostClient)
    (h : f (l.getD i default) = g (l.getD i default)) :
    updateClient l i f = updateClient l i g := by
  induction l generalizing i with
  | nil => rfl
  | cons c cs ih =>
    cases i with
    | zero => simpa [updateClient] using h
    | succ n => simp [updateClient, ih n (by simpa using h)]

theorem modifyClient_congr {s : HostState} {i : Nat} {f g : HostClient → HostClient}
    (h : f (clientAt s i) = g (clientAt s i)) :
    modifyClient s i f = modifyClient s i g := by
  simp [modifyClient, updateClient_congr _ _ _ _ h]

theorem modifyClient_comp (s : HostState) (i : Nat) (f g : HostClient → HostClient) :
    modifyClient (modifyClient s i f) i g = modifyClient s i fun c => g (f c) := by
  simp [modifyClient, updateClient_comp]

theorem modifyClient_eq_self (s : HostState) (i : Nat) (f : HostClient → HostClient)
    (h : f (clientAt s i) = clientAt s i) : modifyClient s i f = s := by
  simp [modifyClient, updateClient_eq_self _ _ _ h]

/-- Clearing the session's receive buffer (the state the dispatcher sees
after a whole single frame is cut out of it). -/
def clearRx (s : HostState) (i : Nat) : HostState :=
  modifyClient s i fun c => { c with rx := [] }

theorem hostProcessFrames_nil (now : Nat) (s : HostState) (i : Nat)
    (h : (clientAt s i).rx = []) : hostProcessFrames now s i = s := by
  rw [hostProcessFrames]
  rw [dif_pos (by rw [h]; simp)]

theorem clientProcessFrames_nil (now : Nat) (c : ClientState)
    (h : c.rx = []) : clientProcessFrames now c = c := by
  rw [clientProcessFrames]
  rw [dif_pos (by rw [h]; simp)]

/-- Processing a buffer holding exactly one whole frame dispatches that
frame's packet once, on the state whose buffer is emptied. -/
theorem hostProcessFrames_frame (now : Nat) (s : HostState) (i : Nat) (packet : List Nat)
    (hi : i < s.clients.length) (hrx : (clientAt s i).rx = frame packet)
    (h1 : 1 ≤ packet.length) (h2 : packet.length ≤ 65536) :
    hostProcessFrames now s i = (hostHandlePacket now packet (clearRx s i) i).1 := by
  have hlen : (clientAt s i).rx.length = 4 + packet.length := by rw [hrx, frame_length]
  have hll : readLenLE (clientAt s i).rx = packet.length := by
    rw [hrx, readLenLE_frame, Nat.mod_eq_of_lt (by omega)]
  rw [hostProcessFrames]
  rw [dif_neg (by omega), dif_neg (by omega), dif_neg (by omega)]
  have hpkt : ((clientAt s i).rx.drop 4).take (readLenLE (clientAt s i).rx) = packet := by
    rw [hll, hrx, frame_drop4, List.take_length]
  have hclear : (modifyClient s i fun c =>
      { c with rx := c.rx.drop (4 + readLenLE (clientAt s i).rx) }) = clearRx s i := by
    apply modifyClient_congr
    rw [hll, hrx, frame_drop_all]
  rw [hpkt, hclear]
  split
  · rename_i s2 heq
    rw [heq]
  · rename_i s2 heq
    rw [heq]
    have hrx2 : (clientAt s2 i).rx = [] := by
      have := hostHandlePacket_rx now packet (clearRx s i) i i
      rw [heq] at this
      simp only at this
      rw [this]
      unfold clearRx
      rw [clientAt_modifyClient_self _ _ _ hi]
    exact hostProcessFrames_nil now s2 i hrx2

/-- Processing a buffer holding exactly one whole frame dispatches that
frame's packet once, on the state whose buffer is emptied (client side). -/
theorem clientProcessFrames_frame (now : Nat) (c : ClientState) (packet : List Nat)
    (hrx : c.rx = frame packet) (h1 : 1 ≤ packet.length) (h2 : packet.length ≤ 65536) :
    clientProcessFrames now c = (handleClientPacket now packet { c with rx := [] }).1 := by
  have hlen : c.rx.length = 4 + packet.length := by rw [hrx, frame_length]
  have hll : readLenLE c.rx = packet.length := by
    rw [hrx, readLenLE_frame, Nat.mod_eq_of_lt (by omega)]
  rw [clientProcessFrames]
  rw [dif_neg (by omega), dif_neg (by omega), dif_neg (by omega)]
  have hpkt : (c.rx.drop 4).take (readLenLE c.rx) = packet := by
    rw [hll, hrx, frame_drop4, List.take_length]
  have hclear : ({ c with rx := c.rx.drop (4 + readLenLE c.rx) } : ClientState) =
      { c with rx := [] } := by
    rw [hll, hrx, frame_drop_all]
  rw [hpkt, hclear]
  split
  · rename_i c2 heq
    rw [heq]
  · rename_i c2 heq
    rw [heq]
    have hrx2 : c2.rx = [] := by
      have hle := handleClientPacket_rx_le now packet ({ c with rx := [] } : ClientState)
      rw [heq] at hle
      simp only at hle
      simpa using Nat.le_zero.mp hle
    exact clientProcessFrames_nil now c2 hrx2

theorem hostPumpClient_some (now : Nat) (bs : List Nat) (s : HostState) (i : Nat) :
    hostPumpClient now (some bs) s i =
      if bs.isEmpty then s
      else hostProcessFrames now (modifyClient s i fun c => { c with rx := c.rx ++ bs }) i :=
  rfl

theorem clientPumpTcp_some (now : Nat) (bs : List Nat) (c : ClientState) :
    clientPumpTcp now (some bs) c =
      if bs.isEmpty then c
      else clientProcessFrames now { c with rx := c.rx ++ bs } :=
  rfl

/-- Receiving exactly one whole frame into an empty buffer dispatches its
packet once on the unchanged state. -/
theorem hostPumpClient_frame (now : Nat) (s : HostState) (i : Nat) (packet : List Nat)
    (hi : i < s.clients.length) (hrx : (clientAt s i).rx = [])
    (h1 : 1 ≤ packet.length) (h2 : packet.length ≤ 65536) :
    hostPumpClient now (some (frame packet)) s i = (hostHandlePacket now packet s i).1 := by
  rw [hostPumpClient_some, if_neg (by simp [frame_isEmpty])]
  have hi2 : i < (modifyClient s i fun c => { c with rx := c.rx ++ frame packet
    }).clients.length := by
    rw [modifyClient_clients_length]; exact hi
  have hrx2 : (clientAt (modifyClient s i fun c =>
      { c with rx := c.rx ++ frame packet }) i).rx = frame packet := by
    rw [clientAt_modifyClient_self _ _ _ hi]
    simp [hrx]
  rw [hostProcessFrames_frame now _ i packet hi2 hrx2 h1 h2]
  have hstate : clearRx (modifyClient s i fun c => { c with rx := c.rx ++ frame packet }) i
      = s := by
    unfold clearRx
    rw [modifyClient_comp]
    apply modifyClient_eq_self
    show ({ clientAt s i with rx := [] } : HostClient) = clientAt s i
    rw [← hrx]
  rw [hstate]

/-- Receiving exactly one whole frame into an empty buffer dispatches its
packet once on the unchanged state (client side). -/
theorem clientPumpTcp_frame (now : Nat) (c : ClientState) (packet : List Nat)
    (hrx : c.rx = []) (h1 : 1 ≤ packet.length) (h2 : packet.length ≤ 65536) :
    clientPumpTcp now (some (frame packet)) c = (handleClientPacket now packet c).1 := by
  rw [clientPumpTcp_some, if_neg (by simp [frame_isEmpty])]
  have hrx2 : ({ c with rx := c.rx ++ frame packet } : ClientState).rx = frame packet := by
    simp [hrx]
  rw [clientProcessFrames_frame now _ packet hrx2 h1 h2]
  have hstate : ({ { c with rx := c.rx ++ frame packet } with rx := [] } : ClientState)
      = c := by
    show ({ c with rx := [] } : ClientState) = c
    rw [← hrx]
  rw [hstate]

/-! ## No-progress lemmas (incomplete buffers) -/

theorem hostProcessFrames_short (now : Nat) (s : HostState) (i : Nat)
    (h : (clientAt s i).rx.length < 4) : hostProcessFrames now s i = s := by
  rw [hostProcessFrames, dif_pos h]

theorem hostProcessFrames_wait (now : Nat) (s : HostState) (i : Nat)
    (h1 : ¬(clientAt s i).rx.length < 4)
    (h2 : ¬(readLenLE (clientAt s i).rx = 0 ∨ 65536 < readLenLE (clientAt s i).rx))
    (h3 : (clientAt s i).rx.length < 4 + readLenLE (clientAt s i).rx) :
    hostProcessFrames now s i = s := by
  rw [hostProcessFrames, dif_neg h1, dif_neg h2, dif_pos h3]

theorem clientProcessFrames_short (now : Nat) (c : ClientState)
    (h : c.rx.length < 4) : clientProcessFrames now c = c := by
  rw [clientProcessFrames, dif_pos h]

theorem clientProcessFrames_wait (now : Nat) (c : ClientState)
    (h1 : ¬c.rx.length < 4)
    (h2 : ¬(readLenLE c.rx = 0 ∨ 65536 < readLenLE c.rx))
    (h3 : c.rx.length < 4 + readLenLE c.rx) :
    clientProcessFrames now c = c := by
  rw [clientProcessFrames, dif_neg h1, dif_neg h2, dif_pos h3]

/-- The four length-prefix bytes agree between a buffer and any buffered
extension of it. -/
theorem readLenLE_append_of_le (a b : List Nat) (h : 4 ≤ a.length) :
    readLenLE (a ++ b) = readLenLE a := by
  unfold readLenLE
  rw [List.getD_append _ _ _ _ (by omega), List.getD_append _ _ _ _ (by omega),
    List.getD_append _ _ _ _ (by omega), List.getD_append _ _ _ _ (by omega)]

theorem broadcastTo_getD (clients : List HostClient) (packet : List Nat) (j : Nat)
    (h : j < clients.length) :
    (broadcastTo clients packet).getD j default =
      if (clients.getD j default).socketValid ∧ (clients.getD j default).joined then
        { clients.getD j default with sent := (clients.getD j default).sent ++ [frame packet] }
      else clients.getD j default := by
  induction clients generalizing j with
  | nil => simp at h
  | cons c cs ih =>
    cases j with
    | zero => rfl
    | succ n =>
      show ((broadcastTo cs packet).getD n default) = _
      exact ih n (by simp at h; omega)

/-! ## Concrete fixtures for the claim theorems -/

/-- A freshly connected client (as left by a successful `connectToHost`). -/
def bobClient : ClientState :=
  { connected := true, tcpValid := true, playerName := strBytes "Bob" }

/-- A running host with two joined sessions ("Bob" at index 0, "Carol" at
index 1), both with empty buffers and untouched send logs. -/
def aliceHost : HostState :=
  { running := true, udpOpen := true, tcpListenOpen := true, tcpPort := 26368,
    lobbyId := 42, lobbyName := strBytes "My Lobby", hostPlayerName := strBytes "Alice",
    clients := [{ joined := true, name := strBytes "Bob" },
                { joined := true, name := strBytes "Carol" }] }

/-- The Chat packet "Bob says hi at t=7". -/
def bobChatPacket : List Nat :=
  makePacket 20 (encodeChatBody 7 (strBytes "Bob") (strBytes "hi"))

/-- A `start()` environment where both socket creations and the default-port
bind succeed but `listen()` fails. -/
def envListenFail : StartEnv :=
  { listenOk := false, randomId := 5 }

/-- The host state left behind by a `start()` that failed at `listen()`. -/
def failedStartHost : HostState :=
  (hostStart envListenFail (strBytes "L") (strBytes "H") 0 [] default).2

/-- A running invite-only host with one joined and one unjoined session. -/
def inviteHost : HostState :=
  { running := true, udpOpen := true, tcpListenOpen := true, tcpPort := 26368,
    lobbyId := 42, privacy := 1, inviteCode := strBytes "secret",
    lobbyName := strBytes "My Lobby", hostPlayerName := strBytes "Alice",
    clients := [{ joined := true, name := strBytes "Bob" }, {}] }

/-- A host session whose buffer starts with a zero length prefix. -/
def badLenHost : HostState :=
  { aliceHost with clients := [{ joined := true, name := strBytes "Bob",
                                 rx := [0, 0, 0, 0, 1, 2, 3] }] }

/-- A connected client whose buffer starts with a length prefix of 70000. -/
def badLenClient : ClientState :=
  { bobClient with rx := [112, 17, 1, 0, 9, 9] }

/-- The client-side decoding of a Chat packet: parse the header, require the
Chat type byte, decode the body (the Chat branch of `_pumpTcp`). -/
def decodeChatPacket (l : List Nat) : Option LobbyChatMessage :=
  match parseHeader l with
  | none => none
  | some (ty, body) =>
    if ty = 20 then
      match decodeChatBody body with
      | none => none
      | some (ts, fromName, text) => some ⟨ts, fromName, text⟩
    else none

/-- Behaviour of the host dispatcher on a well-formed Hello packet: wrong
lobbyId closes silently; invite-only with a wrong code sends a Kick and
closes; otherwise join, record the name, send a HelloAck and push the
"joined" system message. -/
theorem hostHandlePacket_hello (now : Nat) (s : HostState) (i lobbyId : Nat)
    (playerName invite : List Nat)
    (hid : lobbyId < 18446744073709551616)
    (hn : playerName.length < 4294967296) (hc : invite.length < 4294967296) :
    hostHandlePacket now (makePacket 10 (encodeHelloBody lobbyId playerName invite)) s i =
      if lobbyId = s.lobbyId then
        if s.privacy = 1 ∧ invite ≠ s.inviteCode then
          (closeAt (sendToClient s i kickPacket) i, false)
        else
          ({ sendToClient (joinClient s i playerName) i (helloAckPacket s) with
              chat := s.chat ++ [⟨now, strBytes "system", playerName ++ strBytes " joined"⟩] },
           true)
      else (closeAt s i, false) := by
  unfold hostHandlePacket
  rw [parseHeader_makePacket _ _ (by norm_num)]
  simp only [decodeHelloBody_encode lobbyId playerName invite hid hn hc]
  by_cases he : lobbyId = s.lobbyId
  · simp [he, show (sendToClient (joinClient s i playerName) i (helloAckPacket s)).chat =
      s.chat from rfl]
  · simp [he]

/-! ## Claim theorems -/

/-- C1: the code pushes the synthesized "Kicked: <reason>" system message
and then calls `disconnect()`, but `disconnect()` clears `_chat`, so after
`pumpConnection()` processes a well-formed Kick frame the client is
disconnected with an empty chat queue: `popChat()` can never return the
synthesized message, contradicting the claim's observability part.  The
evaluation below exhibits this at a concrete Kick frame. -/
theorem c1_kick_synthesized_message_unobservable :
    isConnected (pumpConnection 5
      (some (frame (makePacket 30 (putString (strBytes "Invalid invite code")))))
      bobClient) = false ∧
    (pumpConnection 5
      (some (frame (makePacket 30 (putString (strBytes "Invalid invite code")))))
      bobClient).chat = [] ∧
    (popChat (pumpConnection 5
      (some (frame (makePacket 30 (putString (strBytes "Invalid invite code")))))
      bobClient)).1 = none := by
  have h : pumpConnection 5
      (some (frame (makePacket 30 (putString (strBytes "Invalid invite code"))))) bobClient =
      (handleClientPacket 5 (makePacket 30 (putString (strBytes "Invalid invite code")))
        bobClient).1 := by
    rw [pumpConnection, if_pos (show isConnected bobClient = true from rfl)]
    exact clientPumpTcp_frame 5 bobClient _ rfl (by decide) (by decide)
  rw [h]
  decide

/-- C2: a Chat frame received from the joined session at index 0 is appended
to the host's chat queue and re-encoded and broadcast — but
`_broadcastPacket` sends to every joined session including the sender, so
the sender's socket receives the relayed frame too, contradicting the
claim's "except the one it was received from" (and the source's own
"Relay to others." comment). -/
theorem c2_chat_relay_echoes_sender :
    (hostPumpClient 9 (some (frame bobChatPacket)) aliceHost 0).chat =
      [⟨7, strBytes "Bob", strBytes "hi"⟩] ∧
    (clientAt (hostPumpClient 9 (some (frame bobChatPacket)) aliceHost 0) 0).sent =
      [frame bobChatPacket] ∧
    (clientAt (hostPumpClient 9 (some (frame bobChatPacket)) aliceHost 0) 1).sent =
      [frame bobChatPacket] := by
  have h : hostPumpClient 9 (some (frame bobChatPacket)) aliceHost 0 =
      (hostHandlePacket 9 bobChatPacket aliceHost 0).1 :=
    hostPumpClient_frame 9 aliceHost 0 bobChatPacket (by decide) rfl (by decide) (by decide)
  rw [h]
  decide

/-- C3 counterexample: on a stopped host (`isRunning()` false),
`sendChatFromHost` is a complete no-op — nothing is appended to the chat
queue, refuting the claim's "in any host state (running or stopped)". -/
theorem c3_stopped_sendChatFromHost_noop :
    (hostStop aliceHost).running = false ∧
    sendChatFromHost 3 (strBytes "hi") (hostStop aliceHost) = hostStop aliceHost ∧
    (sendChatFromHost 3 (strBytes "hi") (hostStop aliceHost)).chat = [] := by
  decide

/-- C3 as amended: on a *running* host, `sendChatFromHost(text)` appends a
message attributed to the host's display name ("host" when empty) to the
local queue and sends the corresponding framed Chat packet to every session
that is joined and has a valid socket. -/
theorem c3_sendChatFromHost_running (now : Nat) (text : List Nat) (s : HostState)
    (h : s.running = true) :
    (sendChatFromHost now text s).chat = s.chat ++
      [⟨now, if s.hostPlayerName = [] then strBytes "host" else s.hostPlayerName, text⟩] ∧
    ∀ j, j < s.clients.length → (clientAt s j).socketValid = true →
      (clientAt s j).joined = true →
      (clientAt (sendChatFromHost now text s) j).sent = (clientAt s j).sent ++
        [frame (makePacket 20 (encodeChatBody now
          (if s.hostPlayerName = [] then strBytes "host" else s.hostPlayerName) text))] := by
  rw [sendChatFromHost, if_neg (by simp [h])]
  refine ⟨rfl, ?_⟩
  intro j hj hvalid hjoined
  show ((broadcastTo s.clients _).getD j default).sent = _
  rw [broadcastTo_getD _ _ _ hj]
  rw [if_pos ⟨hvalid, hjoined⟩]
  rfl

/-- Witness for `c3_sendChatFromHost_running` at the running two-session
host, observing the broadcast at the joined session of index 0. -/
theorem c3_witness :
    (sendChatFromHost 3 (strBytes "hi") aliceHost).chat = aliceHost.chat ++
      [⟨3, strBytes "Alice", strBytes "hi"⟩] ∧
    (clientAt (sendChatFromHost 3 (strBytes "hi") aliceHost) 0).sent =
      (clientAt aliceHost 0).sent ++
      [frame (makePacket 20 (encodeChatBody 3 (strBytes "Alice") (strBytes "hi")))] := by
  have h := c3_sendChatFromHost_running 3 (strBytes "hi") aliceHost rfl
  exact ⟨h.1, h.2 0 (by decide) (by decide) (by decide)⟩

/-- C9 counterexample: a `start()` that fails at `listen()` leaves
`isRunning()` false but `tcpPort() = 26368` and `lobbyId() = 5`; calling
`stop()` on this not-running host resets both, so `stop()` on a host with
`isRunning()` already false does change observable state. -/
theorem c9_stop_after_failed_start_changes_state :
    failedStartHost.running = false ∧
    failedStartHost.tcpPort = 26368 ∧
    failedStartHost.lobbyId = 5 ∧
    (hostStop failedStartHost).tcpPort = 0 ∧
    (hostStop failedStartHost).lobbyId = 0 ∧
    hostStop failedStartHost ≠ failedStartHost := by
  decide

/-- C9 as amended: a second `stop()` right after a `stop()`, and a second
`disconnect()` right after a `disconnect()`, are exact no-ops, and leave
`isRunning()` / `isConnected()` false.  (After a *failed* `start()` the
host also reports not-running, yet `stop()` still resets the `tcpPort` /
`lobbyId` values the failed `start()` left behind.) -/
theorem c9_stop_disconnect_idempotent (s : HostState) (c : ClientState) :
    hostStop (hostStop s) = hostStop s ∧
    (hostStop s).running = false ∧
    clientDisconnect (clientDisconnect c) = clientDisconnect c ∧
    isConnected (clientDisconnect c) = false :=
  ⟨rfl, rfl, rfl, rfl⟩

theorem helloPacket_length (lobbyId : Nat) (playerName invite : List Nat) :
    (makePacket 10 (encodeHelloBody lobbyId playerName invite)).length =
      25 + playerName.length + invite.length := by
  simp [makePacket, encodeHelloBody, putU64, putU32, putU8, putString]
  omega

/-- C5: processing one well-formed framed Hello on a session with an empty
buffer: a wrong lobbyId closes the socket with no reply; an invite-only
host with a wrong code sends a Kick frame and closes; otherwise the session
is joined under the Hello's player name, a HelloAck is sent back, and the
"`<name>` joined" system message lands in the host chat queue. -/
theorem c5_hello_cases (s : HostState) (i now lobbyId : Nat) (playerName invite : List Nat)
    (hi : i < s.clients.length) (hrx : (clientAt s i).rx = [])
    (hid : lobbyId < 18446744073709551616)
    (hsz : playerName.length + invite.length ≤ 65511) :
    (lobbyId ≠ s.lobbyId →
      hostPumpClient now (some (frame (makePacket 10 (encodeHelloBody lobbyId playerName
        invite)))) s i = closeAt s i) ∧
    (lobbyId = s.lobbyId → s.privacy = 1 → invite ≠ s.inviteCode →
      hostPumpClient now (some (frame (makePacket 10 (encodeHelloBody lobbyId playerName
        invite)))) s i = closeAt (sendToClient s i kickPacket) i) ∧
    (lobbyId = s.lobbyId → (s.privacy ≠ 1 ∨ invite = s.inviteCode) →
      hostPumpClient now (some (frame (makePacket 10 (encodeHelloBody lobbyId playerName
        invite)))) s i =
        { sendToClient (joinClient s i playerName) i (helloAckPacket s) with
            chat := s.chat ++ [⟨now, strBytes "system", playerName ++ strBytes " joined"⟩] }) := by
  have hp : hostPumpClient now (some (frame (makePacket 10 (encodeHelloBody lobbyId playerName
      invite)))) s i =
      (hostHandlePacket now (makePacket 10 (encodeHelloBody lobbyId playerName invite)) s i).1 :=
    hostPumpClient_frame now s i _ hi hrx (by rw [helloPacket_length]; omega)
      (by rw [helloPacket_length]; omega)
  rw [hp, hostHandlePacket_hello now s i lobbyId playerName invite hid (by omega) (by omega)]
  refine ⟨?_, ?_, ?_⟩
  · intro hne
    rw [if_neg (by simp [hne])]
  · intro he hp1 hiv
    rw [if_pos he, if_pos ⟨hp1, hiv⟩]
  · intro he hor
    rw [if_pos he, if_neg (by tauto)]

/-- Witness for `c5_hello_cases`: "Dave" joins the open two-session host
with the correct lobbyId 42 and an empty invite code. -/
theorem c5_witness :
    hostPumpClient 11
      (some (frame (makePacket 10 (encodeHelloBody 42 (strBytes "Dave") [])))) aliceHost 0 =
      { sendToClient (joinClient aliceHost 0 (strBytes "Dave")) 0 (helloAckPacket aliceHost) with
          chat := aliceHost.chat ++
            [⟨11, strBytes "system", strBytes "Dave" ++ strBytes " joined"⟩] } :=
  (c5_hello_cases aliceHost 0 11 42 (strBytes "Dave") [] (by decide) rfl (by decide)
    (by decide)).2.2 (by decide) (Or.inl (by decide))

/-- C6: a buffered length prefix of 0 or above 65536 makes the host close
the session, and the client disconnect, right away — the remaining buffered
bytes are never dispatched. -/
theorem c6_bad_length_closes (now : Nat) (s : HostState) (i : Nat) (c : ClientState)
    (hh4 : 4 ≤ (clientAt s i).rx.length)
    (hhv : readLenLE (clientAt s i).rx = 0 ∨ 65536 < readLenLE (clientAt s i).rx)
    (hc4 : 4 ≤ c.rx.length)
    (hcv : readLenLE c.rx = 0 ∨ 65536 < readLenLE c.rx) :
    hostProcessFrames now s i = closeAt s i ∧
    clientProcessFrames now c = clientDisconnect c := by
  constructor
  · rw [hostProcessFrames, dif_neg (by omega), dif_pos hhv]
  · rw [clientProcessFrames, dif_neg (by omega), dif_pos hcv]

/-- Witness for `c6_bad_length_closes`: a zero length prefix host-side and a
70000 length prefix client-side. -/
theorem c6_witness :
    hostProcessFrames 1 badLenHost 0 = closeAt badLenHost 0 ∧
    clientProcessFrames 1 badLenClient = clientDisconnect badLenClient :=
  c6_bad_length_closes 1 badLenHost 0 badLenClient (by decide) (by decide) (by decide)
    (by decide)

/-- C8: encoding a Chat message with the packet codec and then parsing the
header and decoding the body (as the client's Chat branch does) returns the
identical (timestampMs, from, text) triple. -/
theorem c8_chat_roundtrip (ts : Nat) (fromName text : List Nat)
    (hts : ts < 18446744073709551616)
    (hf : fromName.length < 4294967296) (ht : text.length < 4294967296) :
    decodeChatPacket (makePacket 20 (encodeChatBody ts fromName text)) =
      some ⟨ts, fromName, text⟩ := by
  unfold decodeChatPacket
  rw [parseHeader_makePacket _ _ (by norm_num)]
  simp [decodeChatBody_encode ts fromName text hts hf ht]

/-- Witness for `c8_chat_roundtrip` at a concrete Chat message. -/
theorem c8_witness :
    decodeChatPacket (makePacket 20 (encodeChatBody 987654321 (strBytes "Bob")
      (strBytes "hello lobby"))) = some ⟨987654321, strBytes "Bob", strBytes "hello lobby"⟩ :=
  c8_chat_roundtrip 987654321 (strBytes "Bob") (strBytes "hello lobby") (by decide) (by decide)
    (by decide)

/-- C10: a session already joined that sends another well-formed Hello with
the correct lobbyId (and an accepted invite code) is fully reprocessed: the
stored name is overwritten with the new player name, another HelloAck is
sent, and another "joined" system message is appended — the host never
short-circuits a repeated handshake. -/
theorem c10_rejoin_reprocessed (s : HostState) (i now : Nat) (playerName invite : List Nat)
    (hi : i < s.clients.length) (hrx : (clientAt s i).rx = [])
    (hjoined : (clientAt s i).joined = true)
    (hid : s.lobbyId < 18446744073709551616)
    (hpriv : s.privacy ≠ 1 ∨ invite = s.inviteCode)
    (hsz : playerName.length + invite.length ≤ 65511) :
    hostPumpClient now (some (frame (makePacket 10 (encodeHelloBody s.lobbyId playerName
        invite)))) s i =
      { sendToClient (joinClient s i playerName) i (helloAckPacket s) with
          chat := s.chat ++ [⟨now, strBytes "system", playerName ++ strBytes " joined"⟩] } ∧
    (clientAt { sendToClient (joinClient s i playerName) i (helloAckPacket s) with
        chat := s.chat ++ [⟨now, strBytes "system", playerName ++ strBytes " joined"⟩] } i).name
      = playerName ∧
    (clientAt { sendToClient (joinClient s i playerName) i (helloAckPacket s) with
        chat := s.chat ++ [⟨now, strBytes "system", playerName ++ strBytes " joined"⟩] } i).sent
      = (clientAt s i).sent ++ [frame (helloAckPacket s)] ∧
    ({ sendToClient (joinClient s i playerName) i (helloAckPacket s) with
        chat := s.chat ++ [⟨now, strBytes "system", playerName ++ strBytes " joined"⟩]
      } : HostState).chat = s.chat ++
        [⟨now, strBytes "system", playerName ++ strBytes " joined"⟩] := by
  have hX : clientAt { sendToClient (joinClient s i playerName) i (helloAckPacket s) with
      chat := s.chat ++ [⟨now, strBytes "system", playerName ++ strBytes " joined"⟩] } i =
      { clientAt s i with joined := true, name := playerName,
                          sent := (clientAt s i).sent ++ [frame (helloAckPacket s)] } := by
    show clientAt (sendToClient (joinClient s i playerName) i (helloAckPacket s)) i = _
    unfold sendToClient joinClient
    rw [clientAt_modifyClient_self _ _ _ (by rw [modifyClient_clients_length]; exact hi),
        clientAt_modifyClient_self _ _ _ hi]
  refine ⟨?_, by rw [hX], by rw [hX], rfl⟩
  have hp : hostPumpClient now (some (frame (makePacket 10 (encodeHelloBody s.lobbyId
      playerName invite)))) s i =
      (hostHandlePacket now (makePacket 10 (encodeHelloBody s.lobbyId playerName invite))
        s i).1 :=
    hostPumpClient_frame now s i _ hi hrx (by rw [helloPacket_length]; omega)
      (by rw [helloPacket_length]; omega)
  rw [hp, hostHandlePacket_hello now s i s.lobbyId playerName invite hid (by omega) (by omega),
    if_pos rfl, if_neg (by tauto)]

/-- Witness for `c10_rejoin_reprocessed`: "Bob" (joined, index 0) re-sends a
Hello as "Bobby" and is reprocessed. -/
theorem c10_witness :
    hostPumpClient 13
      (some (frame (makePacket 10 (encodeHelloBody aliceHost.lobbyId (strBytes "Bobby") []))))
      aliceHost 0 =
      { sendToClient (joinClient aliceHost 0 (strBytes "Bobby")) 0 (helloAckPacket aliceHost)
          with chat := aliceHost.chat ++
            [⟨13, strBytes "system", strBytes "Bobby" ++ strBytes " joined"⟩] } ∧
    (clientAt { sendToClient (joinClient aliceHost 0 (strBytes "Bobby")) 0
        (helloAckPacket aliceHost) with chat := aliceHost.chat ++
          [⟨13, strBytes "system", strBytes "Bobby" ++ strBytes " joined"⟩] } 0).name =
      strBytes "Bobby" := by
  have h := c10_rejoin_reprocessed aliceHost 0 13 (strBytes "Bobby") [] (by decide) rfl
    (by decide) (by decide) (Or.inl (by decide)) (by decide)
  exact ⟨h.1, h.2.1⟩

/-! ## Advertise datagrams and deduplication lemmas -/

/-- Field values of one Advertise broadcast together with its sender. -/
structure AdvertiseArgs where
  lobbyId : Nat
  tcpPort : Nat
  privacy : Nat
  lobbyName : List Nat
  hostPlayerName : List Nat
  senderAddress : List Nat
  senderPort : Nat
  deriving DecidableEq, Repr, Inhabited

/-- The UDP datagram such a broadcast produces (payload, sender endpoint). -/
def advertiseDatagram (a : AdvertiseArgs) : List Nat × IpEndpoint :=
  (makePacket 1 (encodeAdvertiseBody a.lobbyId a.tcpPort a.privacy a.lobbyName
      a.hostPlayerName),
   ⟨a.senderAddress, a.senderPort⟩)

/-- The `LobbyHostInfo` that `_pumpUdp` builds from that datagram. -/
def advertiseInfo (a : AdvertiseArgs) : LobbyHostInfo :=
  { lobbyName := a.lobbyName, hostPlayerName := a.hostPlayerName, privacy := a.privacy % 256,
    tcpPort := a.tcpPort, endpoint := ⟨a.senderAddress, a.tcpPort⟩, lobbyId := a.lobbyId,
    protocolVersion := 1 }

theorem handleDatagram_advertise (c : ClientState) (a : AdvertiseArgs)
    (hid : a.lobbyId < 18446744073709551616) (hp : a.tcpPort < 65536)
    (hl : a.lobbyName.length < 4294967296) (hh : a.hostPlayerName.length < 4294967296) :
    handleDatagram c (advertiseDatagram a).1 (advertiseDatagram a).2 =
      { c with discovered := c.discovered ++ [advertiseInfo a] } := by
  show handleDatagram c
    (makePacket 1 (encodeAdvertiseBody a.lobbyId a.tcpPort a.privacy a.lobbyName
      a.hostPlayerName)) ⟨a.senderAddress, a.senderPort⟩ = _
  unfold handleDatagram
  rw [parseHeader_makePacket _ _ (by norm_num)]
  simp [decodeAdvertiseBody_encode _ _ _ _ _ hid hp hl hh, advertiseInfo,
    Nat.mod_eq_of_lt hp]

theorem pumpUdp_advertises (c : ClientState) (as : List AdvertiseArgs)
    (hwf : ∀ a ∈ as, a.lobbyId < 18446744073709551616 ∧ a.tcpPort < 65536 ∧
      a.lobbyName.length < 4294967296 ∧ a.hostPlayerName.length < 4294967296) :
    pumpUdp c (as.map advertiseDatagram) =
      { c with discovered := c.discovered ++ as.map advertiseInfo } := by
  induction as generalizing c with
  | nil => simp [pumpUdp]
  | cons a rest ih =>
    have ha := hwf a (List.mem_cons_self a rest)
    show pumpUdp (handleDatagram c (advertiseDatagram a).1 (advertiseDatagram a).2)
      (rest.map advertiseDatagram) = _
    rw [handleDatagram_advertise c a ha.1 ha.2.1 ha.2.2.1 ha.2.2.2]
    rw [ih _ (fun x hx => hwf x (List.mem_cons_of_mem a hx))]
    simp

theorem mergeDiscovered_cons (dst : List LobbyHostInfo) (y : LobbyHostInfo)
    (ys : List LobbyHostInfo) :
    mergeDiscovered dst (y :: ys) =
      mergeDiscovered (if dst.any fun e => hostInfoEquals e y then dst else dst ++ [y]) ys :=
  rfl

theorem mergeDiscovered_singleton_of_all (x : LobbyHostInfo) (xs : List LobbyHostInfo)
    (hall : ∀ y ∈ xs, hostInfoEquals x y = true) :
    mergeDiscovered [x] xs = [x] := by
  induction xs with
  | nil => rfl
  | cons y ys ih =>
    rw [mergeDiscovered_cons]
    rw [if_pos (by simp [hall y (List.mem_cons_self y ys)])]
    exact ih fun z hz => hall z (List.mem_cons_of_mem y hz)

theorem mergeDiscovered_nil_cons (x : LobbyHostInfo) (xs : List LobbyHostInfo) :
    mergeDiscovered [] (x :: xs) = mergeDiscovered [x] xs := by
  rw [mergeDiscovered_cons]
  simp

theorem hostInfoEquals_advertiseInfo (a b : AdvertiseArgs)
    (hid : a.lobbyId = b.lobbyId) (haddr : a.senderAddress = b.senderAddress)
    (hport : a.tcpPort = b.tcpPort) :
    hostInfoEquals (advertiseInfo a) (advertiseInfo b) = true := by
  simp [hostInfoEquals, advertiseInfo, hid, haddr, hport]

/-- A client with discovery started and no pending results. -/
def discoBob : ClientState := { discovering := true, udpOpen := true }

/-- An Advertise broadcast by lobby 77 from 192.168.1.5, advertising TCP
port 26368. -/
def advArgsA : AdvertiseArgs :=
  { lobbyId := 77, tcpPort := 26368, privacy := 0, lobbyName := strBytes "L",
    hostPlayerName := strBytes "H", senderAddress := strBytes "192.168.1.5",
    senderPort := 51000 }

/-- A later broadcast of the same lobby from the same endpoint (same key,
different non-key fields). -/
def advArgsB : AdvertiseArgs :=
  { advArgsA with hostPlayerName := strBytes "H2", privacy := 1 }

/-- C4 counterexample: two identical valid Advertise datagrams with
lobbyId 77 from the same endpoint received before the drain make
`drainDiscovered()` return *two* records keyed (77, 192.168.1.5:26368) —
the core never deduplicates, so the drained results do not contain exactly
one entry per key. -/
theorem c4_duplicate_advertisements_drain_twice :
    (drainDiscovered (pumpDiscovery discoBob
      [advertiseDatagram advArgsA, advertiseDatagram advArgsA])).1 =
      [advertiseInfo advArgsA, advertiseInfo advArgsA] ∧
    (drainDiscovered (pumpDiscovery discoBob
      [advertiseDatagram advArgsA, advertiseDatagram advArgsA])).1.length = 2 ∧
    (advertiseInfo advArgsA).lobbyId = 77 ∧
    (advertiseInfo advArgsA).endpoint = ⟨strBytes "192.168.1.5", 26368⟩ := by
  refine ⟨?_, ?_, ?_, ?_⟩ <;> decide

/-- C4 as amended: `drainDiscovered()` returns one record per valid
Advertise datagram received, duplicates included; after the presentation
layer's `mergeDiscovered` deduplication, the result contains exactly one
`LobbyHostInfo` keyed by (L, E), however many duplicate advertisements
arrived before the drain. -/
theorem c4_merged_discovery_unique (c0 : ClientState) (as : List AdvertiseArgs)
    (L P : Nat) (A : List Nat)
    (hne : as ≠ [])
    (hdisc : c0.discovering = true) (hempty : c0.discovered = [])
    (hkey : ∀ a ∈ as, a.lobbyId = L ∧ a.tcpPort = P ∧ a.senderAddress = A)
    (hwf : ∀ a ∈ as, a.lobbyId < 18446744073709551616 ∧ a.tcpPort < 65536 ∧
      a.lobbyName.length < 4294967296 ∧ a.hostPlayerName.length < 4294967296) :
    (drainDiscovered (pumpDiscovery c0 (as.map advertiseDatagram))).1 =
      as.map advertiseInfo ∧
    (mergeDiscovered []
      (drainDiscovered (pumpDiscovery c0 (as.map advertiseDatagram))).1).length = 1 ∧
    ∀ m ∈ mergeDiscovered []
        (drainDiscovered (pumpDiscovery c0 (as.map advertiseDatagram))).1,
      m.lobbyId = L ∧ m.endpoint.address = A ∧ m.endpoint.port = P := by
  have hdrain : (drainDiscovered (pumpDiscovery c0 (as.map advertiseDatagram))).1 =
      as.map advertiseInfo := by
    unfold pumpDiscovery
    rw [if_neg (by simp [hdisc])]
    rw [pumpUdp_advertises c0 as hwf]
    unfold drainDiscovered
    simp [hempty]
  refine ⟨hdrain, ?_⟩
  rw [hdrain]
  match as, hne with
  | a :: rest, _ =>
    have hmerge : mergeDiscovered [] ((a :: rest).map advertiseInfo) = [advertiseInfo a] := by
      rw [List.map_cons, mergeDiscovered_nil_cons]
      apply mergeDiscovered_singleton_of_all
      intro y hy
      rcases List.mem_map.mp hy with ⟨b, hb, rfl⟩
      have hka := hkey a (List.mem_cons_self a rest)
      have hkb := hkey b (List.mem_cons_of_mem a hb)
      exact hostInfoEquals_advertiseInfo a b (by rw [hka.1, hkb.1])
        (by rw [hka.2.2, hkb.2.2]) (by rw [hka.2.1, hkb.2.1])
    rw [hmerge]
    have hka := hkey a (List.mem_cons_self a rest)
    refine ⟨rfl, ?_⟩
    intro m hm
    have : m = advertiseInfo a := by simpa using hm
    subst this
    exact ⟨hka.1, hka.2.2, hka.2.1⟩

/-- Witness for `c4_merged_discovery_unique`: three same-key broadcasts
(two identical, one with changed non-key fields) merge to a single record
keyed (77, 192.168.1.5:26368). -/
theorem c4_witness :
    (mergeDiscovered [] (drainDiscovered (pumpDiscovery discoBob
      ([advArgsA, advArgsB, advArgsA].map advertiseDatagram))).1).length = 1 ∧
    ((advertiseInfo advArgsA).lobbyId = 77 ∧
      (advertiseInfo advArgsA).endpoint.address = strBytes "192.168.1.5" ∧
      (advertiseInfo advArgsA).endpoint.port = 26368) := by
  have h := c4_merged_discovery_unique discoBob [advArgsA, advArgsB, advArgsA] 77 26368
    (strBytes "192.168.1.5") (by decide) rfl rfl
    (by intro a ha; fin_cases ha <;> exact ⟨rfl, rfl, rfl⟩)
    (by intro a ha; fin_cases ha <;> refine ⟨by decide, by decide, by decide, by decide⟩)
  exact ⟨h.2.1, h.2.2 (advertiseInfo advArgsA) (by rw [h.1]; decide)⟩

/-- A strict prefix of a valid frame buffered alone makes no progress
(client side): either fewer than 4 bytes are buffered, or the declared
length is legal but the body is incomplete. -/
theorem clientProcessFrames_incomplete (now : Nat) (c : ClientState) (packet a b : List Nat)
    (h1 : 1 ≤ packet.length) (h2 : packet.length ≤ 65536)
    (hsplit : frame packet = a ++ b) (hb : b ≠ [])
    (hrx : c.rx = a) :
    clientProcessFrames now c = c := by
  have hlen : a.length + b.length = 4 + packet.length := by
    have := congrArg List.length hsplit
    simp only [List.length_append, frame_length] at this
    omega
  have hblen : 1 ≤ b.length := by
    cases b with
    | nil => exact absurd rfl hb
    | cons x xs => simp
  by_cases h4 : a.length < 4
  · exact clientProcessFrames_short now c (by rw [hrx]; exact h4)
  · have hl : readLenLE a = packet.length := by
      have h := readLenLE_append_of_le a b (by omega)
      rw [← hsplit, readLenLE_frame, Nat.mod_eq_of_lt (by omega)] at h
      omega
    exact clientProcessFrames_wait now c (by rw [hrx]; omega)
      (by rw [hrx, hl]; omega) (by rw [hrx, hl]; omega)

/-- A strict prefix of a valid frame buffered alone makes no progress
(host side). -/
theorem hostProcessFrames_incomplete (now : Nat) (s : HostState) (i : Nat)
    (packet a b : List Nat)
    (h1 : 1 ≤ packet.length) (h2 : packet.length ≤ 65536)
    (hsplit : frame packet = a ++ b) (hb : b ≠ [])
    (hrx : (clientAt s i).rx = a) :
    hostProcessFrames now s i = s := by
  have hlen : a.length + b.length = 4 + packet.length := by
    have := congrArg List.length hsplit
    simp only [List.length_append, frame_length] at this
    omega
  have hblen : 1 ≤ b.length := by
    cases b with
    | nil => exact absurd rfl hb
    | cons x xs => simp
  by_cases h4 : a.length < 4
  · exact hostProcessFrames_short now s i (by rw [hrx]; exact h4)
  · have hl : readLenLE a = packet.length := by
      have h := readLenLE_append_of_le a b (by omega)
      rw [← hsplit, readLenLE_frame, Nat.mod_eq_of_lt (by omega)] at h
      omega
    exact hostProcessFrames_wait now s i (by rw [hrx]; omega)
      (by rw [hrx, hl]; omega) (by rw [hrx, hl]; omega)

/-- C7: delivering the bytes of one valid frame in two partial reads (each
appended to the receive buffer before the extraction loop runs) ends in
exactly the same state as delivering them in a single read — for the
client's `_pumpTcp` and the host's `_pumpClient` alike. -/
theorem c7_split_read_equivalence (now : Nat) (packet a b : List Nat)
    (h1 : 1 ≤ packet.length) (h2 : packet.length ≤ 65536)
    (hsplit : frame packet = a ++ b)
    (c : ClientState) (hc : c.rx = [])
    (s : HostState) (i : Nat) (hi : i < s.clients.length)
    (hs : (clientAt s i).rx = []) :
    clientPumpTcp now (some b) (clientPumpTcp now (some a) c) =
      clientPumpTcp now (some (frame packet)) c ∧
    hostPumpClient now (some b) (hostPumpClient now (some a) s i) i =
      hostPumpClient now (some (frame packet)) s i := by
  constructor
  · by_cases ha : a = []
    · subst ha
      simp only [List.nil_append] at hsplit
      rw [clientPumpTcp_some now [] c,
        if_pos (show (List.isEmpty ([] : List Nat)) = true from rfl), hsplit]
    · by_cases hb : b = []
      · subst hb
        have ha2 : frame packet = a := by simpa using hsplit
        rw [clientPumpTcp_some now [] (clientPumpTcp now (some a) c),
          if_pos (show (List.isEmpty ([] : List Nat)) = true from rfl), ha2]
      · rw [clientPumpTcp_some now a c, if_neg (by simp [ha])]
        rw [hc, List.nil_append]
        rw [clientProcessFrames_incomplete now _ packet a b h1 h2 hsplit hb rfl]
        rw [clientPumpTcp_some now b _, if_neg (by simp [hb])]
        rw [clientPumpTcp_some now (frame packet) c, if_neg (by simp [frame_isEmpty])]
        rw [hc, List.nil_append]
        show clientProcessFrames now { c with rx := a ++ b } = _
        rw [← hsplit]
  · by_cases ha : a = []
    · subst ha
      simp only [List.nil_append] at hsplit
      rw [hostPumpClient_some now [] s i,
        if_pos (show (List.isEmpty ([] : List Nat)) = true from rfl), hsplit]
    · by_cases hb : b = []
      · subst hb
        have ha2 : frame packet = a := by simpa using hsplit
        rw [hostPumpClient_some now [] (hostPumpClient now (some a) s i) i,
          if_pos (show (List.isEmpty ([] : List Nat)) = true from rfl), ha2]
      · rw [hostPumpClient_some now a s i, if_neg (by simp [ha])]
        rw [hostProcessFrames_incomplete now _ i packet a b h1 h2 hsplit hb
          (by rw [clientAt_modifyClient_self _ _ _ hi, hs, List.nil_append])]
        rw [hostPumpClient_some now b _ i, if_neg (by simp [hb])]
        rw [hostPumpClient_some now (frame packet) s i, if_neg (by simp [frame_isEmpty])]
        rw [modifyClient_comp]
        congr 1
        apply modifyClient_congr
        show ({ clientAt s i with
            rx := ((clientAt s i).rx ++ a) ++ b } : HostClient) =
          { clientAt s i with rx := (clientAt s i).rx ++ frame packet }
        rw [hs, hsplit]
        simp

/-- Witness for `c7_split_read_equivalence`: the framed Chat packet split
after its tenth byte, delivered to the idle client and to session 0 of the
running host. -/
theorem c7_witness :
    clientPumpTcp 3 (some ((frame bobChatPacket).drop 10))
        (clientPumpTcp 3 (some ((frame bobChatPacket).take 10)) bobClient) =
      clientPumpTcp 3 (some (frame bobChatPacket)) bobClient ∧
    hostPumpClient 3 (some ((frame bobChatPacket).drop 10))
        (hostPumpClient 3 (some ((frame bobChatPacket).take 10)) aliceHost 0) 0 =
      hostPumpClient 3 (some (frame bobChatPacket)) aliceHost 0 :=
  c7_split_read_equivalence 3 bobChatPacket ((frame bobChatPacket).take 10)
    ((frame bobChatPacket).drop 10) (by decide) (by decide)
    (by rw [List.take_append_drop]) bobClient rfl aliceHost 0 (by decide) rfl

end LanLobby
